import Mathlib

/-!
Verification of the ValutaTrade Hub specification against the code of
`valutatrade_hub/cli/interface.py` (the only source file present).  The CLI
layer is embedded directly from the source; the core collaborators it calls
(`ExchangeRateService`, `PortfolioManager`, `RatesUpdater`, `RatesStorage`)
are not under the source tree, so they are modelled from the specification
text, as marked on each definition.

Strings are embedded as lists of Unicode code points (`Str := List Nat`),
so that Python string operations (`upper`, `startswith`, `endswith`,
slicing) become executable list functions.  Rates and balances are
rational numbers; timestamps are naturals.

The file is organised as definitions first, then theorems.
-/

namespace ValutaTrade

/-! ## Definitions: strings and association lists -/

/-- Python strings, embedded as lists of Unicode code points. -/
abbrev Str := List Nat

/-- The code point of the underscore character, used in pair keys. -/
def UND : Nat := 95

/-- One code point of Python `str.upper` restricted to ASCII: maps
`a`..`z` (97..122) to `A`..`Z` (65..90), leaves the rest unchanged. -/
def upperChar (n : Nat) : Nat := if 97 ≤ n ∧ n ≤ 122 then n - 32 else n

/-- Python `str.upper` on the embedded strings. -/
def pyUpper (s : Str) : Str := s.map upperChar

/-- Association-list lookup by key, first match wins (models a Python
dict lookup on a dict represented in insertion order). -/
def alookup {α β : Type} [DecidableEq α] : List (α × β) → α → Option β
  | [], _ => none
  | (k, v) :: rest, x => if x = k then some v else alookup rest x

/-- Association-list insert-or-replace, preserving insertion order
(models `d[k] = v` on a Python dict). -/
def aupdate {α β : Type} [DecidableEq α] : List (α × β) → α → β → List (α × β)
  | [], k, v => [(k, v)]
  | (k₀, v₀) :: rest, k, v =>
      if k = k₀ then (k, v) :: rest else (k₀, v₀) :: aupdate rest k v

/-! ## Definitions: rate cache and exchange-rate service -/

/-- A rate record as in the spec data model: pair, positive rate,
provenance source and fetch timestamp. -/
structure RateRecord where
  base : Str
  quote : Str
  rate : ℚ
  source : Str
  fetched_at : Nat
deriving DecidableEq

/-- The full cache contents: pairs mapping and last refresh timestamp
(`none` before the first successful update). -/
structure Snapshot where
  pairs : List ((Str × Str) × RateRecord)
  last_refresh : Option Nat
deriving DecidableEq

/-- The empty snapshot of a first run. -/
def emptySnapshot : Snapshot := { pairs := [], last_refresh := none }

/-- Modelled from the spec: `ExchangeRateService.get_rate` (the module
`core/utils` is not in the source tree).  Resolution order per spec
section 4.4: identity pair gives exactly 1; otherwise direct cache
lookup; otherwise the inverse pair gives `1/r`; otherwise absent, with
no triangulation through a third currency. -/
def get_rate (snap : Snapshot) (fromC toC : Str) : Option ℚ :=
  if fromC = toC then some 1
  else
    match alookup snap.pairs (fromC, toC) with
    | some r => some r.rate
    | none =>
        match alookup snap.pairs (toC, fromC) with
        | some r => some (1 / r.rate)
        | none => none

/-- CLI `get-rate` resolution, from `CLIInterface.get_rate` lines
148-154 of the source: both currency-code arguments are uppercased and
then handed to the rate service. -/
def cli_get_rate_resolve (snap : Snapshot) (fromArg toArg : Str) : Option ℚ :=
  get_rate snap (pyUpper fromArg) (pyUpper toArg)

/-! ## Definitions: portfolio transaction engine (spec section 4.5)

`PortfolioManager` lives in `core/usecases`, which is not in the source
tree; the CLI (`CLIInterface.buy`/`sell`, lines 98-103 and 129-133)
only forwards `(user_id, currency, amount)` to it.  The engine is
modelled from the spec. -/

/-- The uppercase code `USD`, the fixed quote currency for pricing. -/
def USD : Str := [85, 83, 68]

/-- Domain errors of the engine, per spec section 7: currency not in
the catalog; sell beyond available funds (reported with requested and
available amounts); invalid amount (the generic invalid-input
condition). -/
inductive TxError where
  | currencyNotFound (code : Str)
  | insufficientFunds (requested available : ℚ)
  | invalidAmount
deriving DecidableEq

/-- The result dictionary a successful buy/sell returns: currency,
amount, old and new balance, rate used (or absent) and the estimated
cost/revenue `amount * rate` (or absent). -/
structure TxResult where
  currency : Str
  amount : ℚ
  old_balance : ℚ
  new_balance : ℚ
  rate : Option ℚ
  estimated : Option ℚ
deriving DecidableEq

/-- Per-user wallet sets: user id to mapping of currency code to
balance, both as insertion-ordered association lists. -/
abbrev Portfolios := List (Nat × List (Str × ℚ))

/-- The wallets of one user, empty if the user has no portfolio yet. -/
def getWallets (ps : Portfolios) (uid : Nat) : List (Str × ℚ) :=
  (alookup ps uid).getD []

/-- Modelled from the spec: `PortfolioManager.buy_currency` (module
`core/usecases` is not in the source tree).  Preconditions: positive
amount, currency in the catalog.  Creates the wallet at balance 0 if
absent and credits `amount`; the purchase succeeds whether or not a
`(currency, USD)` rate is available, and the rate/cost fields are
absent exactly when the rate is. -/
def buy_currency (catalog : List Str) (snap : Snapshot) (ps : Portfolios)
    (uid : Nat) (cur : Str) (amount : ℚ) : Except TxError TxResult × Portfolios :=
  if amount ≤ 0 then (Except.error TxError.invalidAmount, ps)
  else if cur ∈ catalog then
    let wallets := getWallets ps uid
    let oldB := (alookup wallets cur).getD 0
    let newB := oldB + amount
    let rate := get_rate snap cur USD
    (Except.ok { currency := cur, amount := amount, old_balance := oldB,
                 new_balance := newB, rate := rate,
                 estimated := rate.map (fun r => amount * r) },
     aupdate ps uid (aupdate wallets cur newB))
  else (Except.error (TxError.currencyNotFound cur), ps)

/-- Modelled from the spec: `PortfolioManager.sell_currency` (module
`core/usecases` is not in the source tree).  Preconditions as for buy,
plus the wallet must hold at least `amount` (an absent wallet has
available balance 0), else the call fails with `InsufficientFundsError`
reporting the requested amount and the available balance and leaves the
portfolios untouched. -/
def sell_currency (catalog : List Str) (snap : Snapshot) (ps : Portfolios)
    (uid : Nat) (cur : Str) (amount : ℚ) : Except TxError TxResult × Portfolios :=
  if amount ≤ 0 then (Except.error TxError.invalidAmount, ps)
  else if cur ∈ catalog then
    let wallets := getWallets ps uid
    let avail := (alookup wallets cur).getD 0
    if avail < amount then
      (Except.error (TxError.insufficientFunds amount avail), ps)
    else
      let newB := avail - amount
      let rate := get_rate snap cur USD
      (Except.ok { currency := cur, amount := amount, old_balance := avail,
                   new_balance := newB, rate := rate,
                   estimated := rate.map (fun r => amount * r) },
       aupdate ps uid (aupdate wallets cur newB))
  else (Except.error (TxError.currencyNotFound cur), ps)

/-- One buy or sell request, for reasoning about operation sequences. -/
inductive Op where
  | buy (uid : Nat) (cur : Str) (amount : ℚ)
  | sell (uid : Nat) (cur : Str) (amount : ℚ)

/-- The portfolio state after one operation (failed operations leave
the state unchanged, as returned by the engine). -/
def applyOp (catalog : List Str) (snap : Snapshot) (ps : Portfolios) : Op → Portfolios
  | Op.buy uid cur amount => (buy_currency catalog snap ps uid cur amount).2
  | Op.sell uid cur amount => (sell_currency catalog snap ps uid cur amount).2

/-- The portfolio state after a sequence of operations. -/
def runOps (catalog : List Str) (snap : Snapshot) (ps : Portfolios)
    (ops : List Op) : Portfolios :=
  ops.foldl (applyOp catalog snap) ps

/-- Every wallet balance in every portfolio is non-negative. -/
def NonNeg (ps : Portfolios) : Prop :=
  ∀ uw ∈ ps, ∀ cb ∈ uw.2, (0 : ℚ) ≤ cb.2

instance : DecidablePred NonNeg := fun ps =>
  inferInstanceAs (Decidable (∀ uw ∈ ps, ∀ cb ∈ uw.2, (0 : ℚ) ≤ cb.2))

/-! ## Definitions: rates storage (spec sections 4.2 and 6)

`RatesStorage` lives in `parser_service/storage`, which is not in the
source tree; the CLI only calls `load_current_rates` (lines 205, 216).
The persisted layout per spec section 6: `last_refresh` plus a mapping
of pair-key strings `"<BASE>_<QUOTE>"` to `{rate, source}`. -/

/-- The per-pair payload of the persisted snapshot file. -/
structure PairData where
  rate : ℚ
  source : Str
deriving DecidableEq

/-- The persisted snapshot contents, as `load_current_rates` returns
them: last refresh timestamp and pair-key-indexed rate data. -/
structure CurrentData where
  last_refresh : Option Nat
  pairs : List (Str × PairData)
deriving DecidableEq

/-- The `"<BASE>_<QUOTE>"` pair-key encoding. -/
def pairKey (b q : Str) : Str := b ++ UND :: q

/-- Decoding of a pair key: the part before the first underscore and
the part after it. -/
def splitKey (k : Str) : Str × Str :=
  (k.takeWhile (fun n => n ≠ UND), (k.dropWhile (fun n => n ≠ UND)).drop 1)

/-- The persisted cache file: absent before the first save. -/
abbrev Store := Option CurrentData

/-- Serialization of an in-memory snapshot into the persisted layout:
pairs are keyed by `"<BASE>_<QUOTE>"` and carry rate and source (the
fetch timestamp is not part of the persisted layout). -/
def encodeSnapshot (s : Snapshot) : CurrentData :=
  { last_refresh := s.last_refresh,
    pairs := s.pairs.map (fun e =>
      (pairKey e.1.1 e.1.2, { rate := e.2.rate, source := e.2.source })) }

/-- Deserialization of the persisted layout back into a snapshot; the
base and quote are recovered by splitting the pair key at its first
underscore, and the fetch timestamp (absent from the persisted layout)
is defaulted to 0. -/
def decodeSnapshot (d : CurrentData) : Snapshot :=
  { last_refresh := d.last_refresh,
    pairs := d.pairs.map (fun e =>
      (splitKey e.1,
       { base := (splitKey e.1).1, quote := (splitKey e.1).2,
         rate := e.2.rate, source := e.2.source, fetched_at := 0 })) }

/-- Modelled from the spec: `RatesStorage.save` (module
`parser_service/storage` is not in the source tree): overwrites the
persisted state with the serialized snapshot. -/
def save (s : Snapshot) (_ : Store) : Store := some (encodeSnapshot s)

/-- Modelled from the spec: `RatesStorage` load (module
`parser_service/storage` is not in the source tree): reads the
persisted state, returning an empty snapshot when none exists. -/
def load (st : Store) : Snapshot :=
  match st with
  | none => emptySnapshot
  | some d => decodeSnapshot d

/-! ## Definitions: rate aggregator (spec section 4.3)

`RatesUpdater` lives in `parser_service/updater`, which is not in the
source tree; the CLI only calls `run_update(source)` (line 200). -/

/-- Modelled from the spec: a `RateSource` adapter (the module
`parser_service` adapters are not in the source tree).  `fetch` is the
outcome of the single fetch the update performs: `none` models a fetch
that failed with `SourceUnavailableError` (caught and logged by the
aggregator), `some records` a successful fetch. -/
structure Adapter where
  name : Str
  fetch : Option (List RateRecord)
deriving DecidableEq

/-- The subset of adapters matching the source filter (all of them when
the filter is absent). -/
def selectAdapters (sourceFilter : Option Str) (adapters : List Adapter) :
    List Adapter :=
  match sourceFilter with
  | none => adapters
  | some f => adapters.filter (fun a => a.name = f)

/-- Last-writer-wins merge of one record into the pairs mapping: a
record for a new pair is appended; for an existing pair the record
replaces the stored one unless the stored one is strictly newer. -/
def upsertRecord (pairs : List ((Str × Str) × RateRecord)) (r : RateRecord) :
    List ((Str × Str) × RateRecord) :=
  match alookup pairs (r.base, r.quote) with
  | some old =>
      if old.fetched_at ≤ r.fetched_at
      then aupdate pairs (r.base, r.quote) r
      else pairs
  | none => pairs ++ [((r.base, r.quote), r)]

/-- Modelled from the spec: `RatesUpdater.run_update` (module
`parser_service/updater` is not in the source tree).  Selects the
adapters matching the filter, collects the successful fetches (failures
are caught, never raised), and if zero adapters succeed returns an
empty sequence leaving snapshot and store untouched; otherwise merges
the records last-writer-wins, sets `last_refresh` to the aggregation
time, and persists the new snapshot. -/
def run_update (sourceFilter : Option Str) (adapters : List Adapter)
    (snap : Snapshot) (now : Nat) (store : Store) :
    List RateRecord × Snapshot × Store :=
  let selected := selectAdapters sourceFilter adapters
  let successes := selected.filterMap (fun a => a.fetch)
  if successes.isEmpty then ([], snap, store)
  else
    let records := successes.flatten
    let newSnap : Snapshot :=
      { pairs := records.foldl upsertRecord snap.pairs, last_refresh := some now }
    (records, newSnap, save newSnap store)

/-! ## Definitions: CLI show-rates (`CLIInterface.show_rates`, lines 213-245)

This command is in the source file and is embedded from it.  Python's
`sorted` with `reverse=True` is a stable descending sort, embedded here
as the stable insertion sort `sortByRateDesc`; Python's slice `l[:n]`
is embedded as `pySliceTo`. -/

/-- Stable insertion into a rate-descending list: an element is placed
before the first strictly smaller rate and after every earlier element
of rate at least as large. -/
def insertByRateDesc (x : Str × PairData) :
    List (Str × PairData) → List (Str × PairData)
  | [] => [x]
  | y :: ys =>
      if y.2.rate ≤ x.2.rate then x :: y :: ys else y :: insertByRateDesc x ys

/-- Stable sort by rate, descending — the behavior of Python's
`sorted` with the rate key and `reverse=True`. -/
def sortByRateDesc : List (Str × PairData) → List (Str × PairData)
  | [] => []
  | x :: xs => insertByRateDesc x (sortByRateDesc xs)

/-- Python's slice `l[:n]` for an `int` bound: the first `n` elements
when `n ≥ 0`, all but the last `-n` elements when `n < 0`. -/
def pySliceTo {α : Type} (n : Int) (l : List α) : List α :=
  if 0 ≤ n then l.take n.toNat else l.take (l.length - (-n).toNat)

/-- `CLIInterface.show_rates` (source lines 213-245), as the sequence
of (pair, data) entries the command displays: empty-cache early return;
filter to pairs whose key starts with `CURRENCY_` or ends with
`_CURRENCY` (the filter argument uppercased); stable sort by rate
descending; then the Python slice `sorted_pairs[:top]` — but only under
Python truthiness `if args.top:`, so a `top` of 0 does not truncate. -/
def cli_show_rates (data : CurrentData) (currency : Option Str)
    (top : Option Int) : List (Str × PairData) :=
  if data.pairs.isEmpty then []
  else
    let filtered_pairs :=
      match currency with
      | some c =>
          let cu := pyUpper c
          data.pairs.filter (fun p =>
            (cu ++ [UND]).isPrefixOf p.1 || (UND :: cu).isSuffixOf p.1)
      | none => data.pairs
    let sorted_pairs := sortByRateDesc filtered_pairs
    match top with
    | some n => if n = 0 then sorted_pairs else pySliceTo n sorted_pairs
    | none => sorted_pairs

/-- The spec's description of `show_rates`, for comparison with the
embedding above: the cached pairs filtered to those containing the
filter currency as a key component (prefix `CURRENCY_` or suffix
`_CURRENCY`, case-insensitively), sorted by rate descending, and
truncated to the first `top_n` entries whenever `top_n` is given. -/
def show_rates_spec (data : CurrentData) (currency : Option Str)
    (top : Option Int) : List (Str × PairData) :=
  let filtered :=
    match currency with
    | some c =>
        let cu := pyUpper c
        data.pairs.filter (fun p =>
          (cu ++ [UND]).isPrefixOf p.1 || (UND :: cu).isSuffixOf p.1)
    | none => data.pairs
  let sorted := sortByRateDesc filtered
  match top with
  | some n => sorted.take n.toNat
  | none => sorted

/-! ## Definitions: CLI login guard (`CLIInterface` lines 44-48, 92-96, 122-126)

`buy`, `sell` and `show_portfolio` all begin with the guard
`if not self.current_user`, printing a login error and returning.
The commands are embedded as total functions returning the new CLI
state, the printed messages, and whether the portfolio manager was
invoked. -/

/-- The mutable state held by `CLIInterface`: the logged-in user (by
id) and the states of the collaborators it owns. -/
structure CLIState where
  current_user : Option Nat
  portfolios : Portfolios
  snapshot : Snapshot
  store : Store
deriving DecidableEq

/-- The messages the embedded CLI commands print. -/
inductive Msg where
  | errPleaseLogin
  | txOk (r : TxResult)
  | txErr (e : TxError)
  | portfolioShown (wallets : List (Str × ℚ))
deriving DecidableEq

/-- Modelled from the spec: `PortfolioManager.get_user_portfolio`
(module `core/usecases` is not in the source tree): read-only access
that creates an empty portfolio on first access. -/
def get_user_portfolio (ps : Portfolios) (uid : Nat) :
    List (Str × ℚ) × Portfolios :=
  match alookup ps uid with
  | some w => (w, ps)
  | none => ([], aupdate ps uid [])

/-- `CLIInterface.buy` (source lines 92-120): login guard, then the
portfolio manager call. -/
def cli_buy (catalog : List Str) (st : CLIState) (cur : Str) (amount : ℚ) :
    CLIState × List Msg × Bool :=
  match st.current_user with
  | none => (st, [Msg.errPleaseLogin], false)
  | some uid =>
      let res := buy_currency catalog st.snapshot st.portfolios uid cur amount
      ({ st with portfolios := res.2 },
       [match res.1 with
        | Except.ok r => Msg.txOk r
        | Except.error e => Msg.txErr e],
       true)

/-- `CLIInterface.sell` (source lines 122-146): login guard, then the
portfolio manager call. -/
def cli_sell (catalog : List Str) (st : CLIState) (cur : Str) (amount : ℚ) :
    CLIState × List Msg × Bool :=
  match st.current_user with
  | none => (st, [Msg.errPleaseLogin], false)
  | some uid =>
      let res := sell_currency catalog st.snapshot st.portfolios uid cur amount
      ({ st with portfolios := res.2 },
       [match res.1 with
        | Except.ok r => Msg.txOk r
        | Except.error e => Msg.txErr e],
       true)

/-- `CLIInterface.show_portfolio` (source lines 44-90): login guard,
then the portfolio manager call. -/
def cli_show_portfolio (st : CLIState) : CLIState × List Msg × Bool :=
  match st.current_user with
  | none => (st, [Msg.errPleaseLogin], false)
  | some uid =>
      let res := get_user_portfolio st.portfolios uid
      ({ st with portfolios := res.2 }, [Msg.portfolioShown res.1], true)

/-! ## Theorems: helper lemmas -/

theorem upperChar_idem (n : Nat) : upperChar (upperChar n) = upperChar n := by
  unfold upperChar
  split
  · split <;> omega
  · rfl

theorem pyUpper_idem (s : Str) : pyUpper (pyUpper s) = pyUpper s := by
  unfold pyUpper
  rw [List.map_map]
  exact List.map_congr_left fun n _ => upperChar_idem n

theorem mem_aupdate {α β : Type} [DecidableEq α] (l : List (α × β)) (k : α)
    (v : β) : ∀ x ∈ aupdate l k v, x ∈ l ∨ x = (k, v) := by
  induction l with
  | nil => simp [aupdate]
  | cons hd tl ih =>
      intro x hx
      unfold aupdate at hx
      split at hx
      · rw [List.mem_cons] at hx
        rcases hx with h | h
        · right; exact h
        · left; exact List.mem_cons_of_mem hd h
      · rw [List.mem_cons] at hx
        rcases hx with h | h
        · left; rw [h]; exact List.mem_cons_self hd tl
        · rcases ih x h with h₂ | h₂
          · left; exact List.mem_cons_of_mem hd h₂
          · right; exact h₂

theorem alookup_mem {α β : Type} [DecidableEq α] (l : List (α × β)) (k : α)
    (v : β) (h : alookup l k = some v) : (k, v) ∈ l := by
  induction l with
  | nil => simp [alookup] at h
  | cons hd tl ih =>
      obtain ⟨k₀, v₀⟩ := hd
      unfold alookup at h
      split at h
      · rename_i heq
        rw [Option.some.injEq] at h
        rw [heq, ← h]
        exact List.mem_cons_self _ _
      · exact List.mem_cons_of_mem _ (ih h)

theorem getWallets_nonneg (ps : Portfolios) (uid : Nat) (h : NonNeg ps) :
    ∀ cb ∈ getWallets ps uid, (0 : ℚ) ≤ cb.2 := by
  unfold getWallets
  cases hl : alookup ps uid with
  | none => simp
  | some w =>
      intro cb hcb
      exact h (uid, w) (alookup_mem ps uid w hl) cb hcb

theorem avail_nonneg (ps : Portfolios) (uid : Nat) (cur : Str)
    (h : NonNeg ps) : (0 : ℚ) ≤ (alookup (getWallets ps uid) cur).getD 0 := by
  cases hl : alookup (getWallets ps uid) cur with
  | none => simp
  | some b =>
      simpa using getWallets_nonneg ps uid h (cur, b)
        (alookup_mem (getWallets ps uid) cur b hl)

theorem nonNeg_update (ps : Portfolios) (uid : Nat) (cur : Str) (b : ℚ)
    (hps : NonNeg ps) (hb : 0 ≤ b) :
    NonNeg (aupdate ps uid (aupdate (getWallets ps uid) cur b)) := by
  intro uw huw cb hcb
  rcases mem_aupdate ps uid (aupdate (getWallets ps uid) cur b) uw huw with h | h
  · exact hps uw h cb hcb
  · subst h
    rcases mem_aupdate (getWallets ps uid) cur b cb hcb with h₂ | h₂
    · exact getWallets_nonneg ps uid hps cb h₂
    · subst h₂; exact hb

theorem buy_preserves_nonNeg (catalog : List Str) (snap : Snapshot)
    (ps : Portfolios) (uid : Nat) (cur : Str) (amount : ℚ)
    (hps : NonNeg ps) :
    NonNeg (buy_currency catalog snap ps uid cur amount).2 := by
  unfold buy_currency
  split
  · exact hps
  · split
    · exact nonNeg_update ps uid cur _ hps
        (by
          have h₁ := avail_nonneg ps uid cur hps
          rename_i hamt _
          push_neg at hamt
          linarith)
    · exact hps

theorem sell_preserves_nonNeg (catalog : List Str) (snap : Snapshot)
    (ps : Portfolios) (uid : Nat) (cur : Str) (amount : ℚ)
    (hps : NonNeg ps) :
    NonNeg (sell_currency catalog snap ps uid cur amount).2 := by
  unfold sell_currency
  split
  · exact hps
  · split
    · dsimp only
      split
      · exact hps
      · exact nonNeg_update ps uid cur _ hps
          (by rename_i hge; push_neg at hge; linarith)
    · exact hps

theorem runOps_preserves_nonNeg (catalog : List Str) (snap : Snapshot)
    (ps : Portfolios) (ops : List Op) (hps : NonNeg ps) :
    NonNeg (runOps catalog snap ps ops) := by
  induction ops generalizing ps with
  | nil => exact hps
  | cons op rest ih =>
      cases op with
      | buy uid cur amount =>
          exact ih _ (buy_preserves_nonNeg catalog snap ps uid cur amount hps)
      | sell uid cur amount =>
          exact ih _ (sell_preserves_nonNeg catalog snap ps uid cur amount hps)

theorem takeWhile_pairKey (b q : Str) (hb : UND ∉ b) :
    (b ++ UND :: q).takeWhile (fun n => n ≠ UND) = b := by
  induction b with
  | nil => simp [List.takeWhile]
  | cons x xs ih =>
      rw [List.mem_cons, not_or] at hb
      have hx : (decide (x ≠ UND)) = true := decide_eq_true (fun h => hb.1 h.symm)
      simp only [List.cons_append, List.takeWhile, hx, List.append_eq]
      rw [ih hb.2]

theorem dropWhile_pairKey (b q : Str) (hb : UND ∉ b) :
    (b ++ UND :: q).dropWhile (fun n => n ≠ UND) = UND :: q := by
  induction b with
  | nil => simp [List.dropWhile]
  | cons x xs ih =>
      rw [List.mem_cons, not_or] at hb
      have hx : (decide (x ≠ UND)) = true := decide_eq_true (fun h => hb.1 h.symm)
      simp only [List.cons_append, List.dropWhile, hx, List.append_eq]
      exact ih hb.2

theorem splitKey_pairKey (b q : Str) (hb : UND ∉ b) :
    splitKey (pairKey b q) = (b, q) := by
  unfold splitKey pairKey
  rw [takeWhile_pairKey b q hb, dropWhile_pairKey b q hb]
  rfl

/-! ## Theorems: the claims -/

/-- C4: `get_rate(X, X)` returns exactly 1 for every currency `X` and
every cache state — in particular for an empty cache, and even when the
cache holds a contradictory record for the pair `(X, X)`, since the
identity step never consults the cache. -/
theorem get_rate_identity (snap : Snapshot) (X : Str) :
    get_rate snap X X = some 1 := by
  unfold get_rate
  simp

/-- C5: for distinct currencies, when the direct pair is absent and the
inverse pair is cached with rate `r`, `get_rate` returns `1/r`; and when
neither direction is cached, the rate is reported absent (no
triangulation through a third currency). -/
theorem get_rate_inverse_and_no_triangulation
    (snap : Snapshot) (A B : Str) (h : A ≠ B)
    (hdir : alookup snap.pairs (A, B) = none) :
    (∀ r : RateRecord, alookup snap.pairs (B, A) = some r →
        get_rate snap A B = some (1 / r.rate)) ∧
    (alookup snap.pairs (B, A) = none → get_rate snap A B = none) := by
  constructor
  · intro r hinv
    unfold get_rate
    simp [h, hdir, hinv]
  · intro hinv
    unfold get_rate
    simp [h, hdir, hinv]

theorem get_rate_inverse_and_no_triangulation_witness :
    (USD ≠ [66, 84, 67] ∧
      alookup (Snapshot.mk [(([66, 84, 67], USD),
        RateRecord.mk [66, 84, 67] USD 60000 [] 5)] (some 9)).pairs
        (USD, [66, 84, 67]) = none) ∧
    ((∀ r : RateRecord,
        alookup (Snapshot.mk [(([66, 84, 67], USD),
          RateRecord.mk [66, 84, 67] USD 60000 [] 5)] (some 9)).pairs
          ([66, 84, 67], USD) = some r →
        get_rate (Snapshot.mk [(([66, 84, 67], USD),
          RateRecord.mk [66, 84, 67] USD 60000 [] 5)] (some 9))
          USD [66, 84, 67] = some (1 / r.rate)) ∧
      (alookup (Snapshot.mk [(([66, 84, 67], USD),
          RateRecord.mk [66, 84, 67] USD 60000 [] 5)] (some 9)).pairs
          ([66, 84, 67], USD) = none →
        get_rate (Snapshot.mk [(([66, 84, 67], USD),
          RateRecord.mk [66, 84, 67] USD 60000 [] 5)] (some 9))
          USD [66, 84, 67] = none)) :=
  ⟨⟨by decide, by decide⟩,
    get_rate_inverse_and_no_triangulation
      (Snapshot.mk [(([66, 84, 67], USD),
        RateRecord.mk [66, 84, 67] USD 60000 [] 5)] (some 9))
      USD [66, 84, 67] (by decide) (by decide)⟩

/-- C10: the CLI `get-rate` command resolves exactly the same rate (or
the same absence) for lower- or mixed-case arguments as for the
corresponding uppercase arguments, because it uppercases both codes
before resolving. -/
theorem cli_get_rate_case_insensitive (snap : Snapshot) (a b : Str) :
    cli_get_rate_resolve snap a b =
      cli_get_rate_resolve snap (pyUpper a) (pyUpper b) := by
  unfold cli_get_rate_resolve
  rw [pyUpper_idem, pyUpper_idem]

/-- C1: for every user, every currency in the catalog, every positive
amount, and every rate snapshot (so both when a `(currency, USD)` rate
is available and when it is absent), the buy succeeds and the returned
new balance equals the returned old balance plus the amount. -/
theorem buy_increments_balance (catalog : List Str) (snap : Snapshot)
    (ps : Portfolios) (uid : Nat) (cur : Str) (amount : ℚ)
    (hpos : 0 < amount) (hcat : cur ∈ catalog) :
    ∃ r : TxResult, (buy_currency catalog snap ps uid cur amount).1 = Except.ok r ∧
      r.new_balance = r.old_balance + amount := by
  unfold buy_currency
  rw [if_neg (not_le.mpr hpos), if_pos hcat]
  exact ⟨_, rfl, rfl⟩

theorem buy_increments_balance_witness :
    (0 : ℚ) < 2 ∧ USD ∈ [USD] ∧
      ∃ r : TxResult,
        (buy_currency [USD] emptySnapshot [] 7 USD 2).1 = Except.ok r ∧
          r.new_balance = r.old_balance + 2 :=
  ⟨by norm_num, by simp,
    buy_increments_balance [USD] emptySnapshot [] 7 USD 2 (by norm_num) (by simp)⟩

/-- C2: selling strictly more than the wallet's available balance fails
with `InsufficientFundsError` reporting the requested amount and the
available balance, and leaves the portfolios (hence the wallet balance)
exactly as they were. -/
theorem sell_insufficient_funds_fails (catalog : List Str) (snap : Snapshot)
    (ps : Portfolios) (uid : Nat) (cur : Str) (amount b : ℚ)
    (hcat : cur ∈ catalog)
    (hw : alookup (getWallets ps uid) cur = some b)
    (hb : 0 ≤ b) (hgt : b < amount) :
    sell_currency catalog snap ps uid cur amount =
      (Except.error (TxError.insufficientFunds amount b), ps) := by
  unfold sell_currency
  rw [if_neg (not_le.mpr (lt_of_le_of_lt hb hgt)), if_pos hcat]
  simp only [hw, Option.getD_some]
  rw [if_pos hgt]

theorem sell_insufficient_funds_fails_witness :
    USD ∈ [USD] ∧ alookup (getWallets [(7, [(USD, (1 : ℚ))])] 7) USD = some 1 ∧
      (0 : ℚ) ≤ 1 ∧ (1 : ℚ) < 3 ∧
      sell_currency [USD] emptySnapshot [(7, [(USD, (1 : ℚ))])] 7 USD 3 =
        (Except.error (TxError.insufficientFunds 3 1), [(7, [(USD, (1 : ℚ))])]) :=
  ⟨by simp, by simp [getWallets, alookup], by norm_num, by norm_num,
    sell_insufficient_funds_fails [USD] emptySnapshot [(7, [(USD, (1 : ℚ))])]
      7 USD 3 1 (by simp) (by simp [getWallets, alookup]) (by norm_num) (by norm_num)⟩

/-- C6: starting from any state with non-negative balances, every state
reachable by any sequence of buy and sell operations again has every
wallet balance non-negative; and every successful sell returns
`new_balance = old_balance - amount` with `new_balance ≥ 0`. -/
theorem balances_nonneg_invariant (catalog : List Str) (snap : Snapshot)
    (ps : Portfolios) (hps : NonNeg ps) :
    (∀ ops : List Op, NonNeg (runOps catalog snap ps ops)) ∧
    (∀ (uid : Nat) (cur : Str) (amount : ℚ) (r : TxResult) (ps₂ : Portfolios),
        sell_currency catalog snap ps uid cur amount = (Except.ok r, ps₂) →
        r.new_balance = r.old_balance - amount ∧ 0 ≤ r.new_balance) := by
  constructor
  · intro ops
    exact runOps_preserves_nonNeg catalog snap ps ops hps
  · intro uid cur amount r ps₂ h
    unfold sell_currency at h
    split at h
    · simp at h
    · split at h
      · dsimp only at h
        split at h
        · simp at h
        · rename_i hge
          push_neg at hge
          rw [Prod.mk.injEq] at h
          obtain ⟨h₁, -⟩ := h
          rw [Except.ok.injEq] at h₁
          subst h₁
          constructor
          · rfl
          · simpa using hge
      · simp at h

theorem balances_nonneg_invariant_witness :
    NonNeg [(7, [(USD, (5 : ℚ))])] ∧
      NonNeg (runOps [USD] emptySnapshot [(7, [(USD, (5 : ℚ))])]
        [Op.sell 7 USD 2, Op.buy 7 USD 1]) :=
  ⟨by decide,
    (balances_nonneg_invariant [USD] emptySnapshot [(7, [(USD, (5 : ℚ))])]
      (by decide)).1 [Op.sell 7 USD 2, Op.buy 7 USD 1]⟩

/-- C8: saving a snapshot and loading it back yields a snapshot equal
to the original — same `last_refresh` and the same pairs mapping under
the `"<BASE>_<QUOTE>"` pair-key encoding — provided base codes contain
no underscore (currency codes are short uppercase identifiers per the
spec data model, so the key encoding is unambiguous). -/
theorem save_load_roundtrip (snap : Snapshot) (store : Store)
    (hb : ∀ e ∈ snap.pairs, UND ∉ e.1.1) :
    (load (save snap store)).last_refresh = snap.last_refresh ∧
      encodeSnapshot (load (save snap store)) = encodeSnapshot snap := by
  constructor
  · rfl
  · show encodeSnapshot (decodeSnapshot (encodeSnapshot snap)) = encodeSnapshot snap
    unfold encodeSnapshot decodeSnapshot
    simp only [List.map_map]
    refine congrArg _ (List.map_congr_left fun e he => ?_)
    have hsplit := splitKey_pairKey e.1.1 e.1.2 (hb e he)
    simp [Function.comp, hsplit]

theorem save_load_roundtrip_witness :
    (∀ e ∈ (Snapshot.mk [((USD, [66, 84, 67]),
        RateRecord.mk USD [66, 84, 67] 60000 [] 5)] (some 9)).pairs,
      UND ∉ e.1.1) ∧
    ((load (save (Snapshot.mk [((USD, [66, 84, 67]),
        RateRecord.mk USD [66, 84, 67] 60000 [] 5)] (some 9)) none)).last_refresh =
      (Snapshot.mk [((USD, [66, 84, 67]),
        RateRecord.mk USD [66, 84, 67] 60000 [] 5)] (some 9)).last_refresh ∧
      encodeSnapshot (load (save (Snapshot.mk [((USD, [66, 84, 67]),
        RateRecord.mk USD [66, 84, 67] 60000 [] 5)] (some 9)) none)) =
      encodeSnapshot (Snapshot.mk [((USD, [66, 84, 67]),
        RateRecord.mk USD [66, 84, 67] 60000 [] 5)] (some 9))) :=
  ⟨by decide,
    save_load_roundtrip (Snapshot.mk [((USD, [66, 84, 67]),
      RateRecord.mk USD [66, 84, 67] 60000 [] 5)] (some 9)) none (by decide)⟩

/-- C3: an update in which every selected adapter fails returns an
empty sequence (and raises nothing, being a total function), and the
snapshot after the call — `last_refresh` and the full pairs mapping —
and even the persisted store are exactly the snapshot and store from
before the call. -/
theorem update_all_adapters_fail_noop (sourceFilter : Option Str)
    (adapters : List Adapter) (snap : Snapshot) (now : Nat) (store : Store)
    (hfail : ∀ a ∈ selectAdapters sourceFilter adapters, a.fetch = none) :
    run_update sourceFilter adapters snap now store = ([], snap, store) := by
  unfold run_update
  have hnil : (selectAdapters sourceFilter adapters).filterMap
      (fun a => a.fetch) = [] := by
    rw [List.filterMap_eq_nil_iff]
    exact hfail
  simp [hnil]

theorem update_all_adapters_fail_noop_witness :
    (∀ a ∈ selectAdapters none [Adapter.mk [99] none, Adapter.mk [100] none],
        a.fetch = none) ∧
      run_update none [Adapter.mk [99] none, Adapter.mk [100] none]
          emptySnapshot 42 none = ([], emptySnapshot, none) :=
  ⟨by decide,
    update_all_adapters_fail_noop none
      [Adapter.mk [99] none, Adapter.mk [100] none] emptySnapshot 42 none
      (by decide)⟩

/-- C7 counterexample: with one cached pair and `top_n = 0` given, the
code displays the pair (Python truthiness skips the slice for 0) while
the claim's reading truncates to the first 0 entries, i.e. to nothing. -/
theorem show_rates_top_zero_counterexample :
    cli_show_rates
        (CurrentData.mk (some 1) [(pairKey [66, 84, 67] USD, PairData.mk 60000 [])])
        none (some 0) ≠
      show_rates_spec
        (CurrentData.mk (some 1) [(pairKey [66, 84, 67] USD, PairData.mk 60000 [])])
        none (some 0) := by
  decide

/-- C7 as amended: for every cached pairs mapping, optional filter
currency and optional `top_n` that is either absent or positive,
`show_rates` returns exactly the pairs filtered to those containing the
filter currency, stably sorted by rate descending, truncated to the
first `top_n` entries — filtering before sorting before truncation.
(For `top_n = 0` the code does not truncate, and for negative `top_n`
Python slice semantics drop trailing entries instead.) -/
theorem show_rates_spec_agreement (data : CurrentData) (currency : Option Str)
    (top : Option Int)
    (h : top = none ∨ ∃ n : Int, top = some n ∧ 0 < n) :
    cli_show_rates data currency top = show_rates_spec data currency top := by
  unfold cli_show_rates show_rates_spec
  by_cases hpairs : data.pairs.isEmpty
  · rw [if_pos hpairs]
    rw [List.isEmpty_iff] at hpairs
    rcases h with rfl | ⟨n, rfl, hn⟩ <;>
      cases currency <;> simp [hpairs, sortByRateDesc]
  · rw [if_neg hpairs]
    rcases h with rfl | ⟨n, rfl, hn⟩
    · rfl
    · dsimp only
      rw [if_neg (by omega : ¬n = 0)]
      unfold pySliceTo
      rw [if_pos (le_of_lt hn)]

theorem show_rates_spec_agreement_witness :
    ((some 2 : Option Int) = none ∨
        ∃ n : Int, (some 2 : Option Int) = some n ∧ 0 < n) ∧
      cli_show_rates
          (CurrentData.mk (some 1)
            [(pairKey [66, 84, 67] USD, PairData.mk 60000 []),
             (pairKey [69, 84, 72] USD, PairData.mk 3000 [])])
          (some USD) (some 2) =
        show_rates_spec
          (CurrentData.mk (some 1)
            [(pairKey [66, 84, 67] USD, PairData.mk 60000 []),
             (pairKey [69, 84, 72] USD, PairData.mk 3000 [])])
          (some USD) (some 2) :=
  ⟨Or.inr ⟨2, rfl, by norm_num⟩,
    show_rates_spec_agreement
      (CurrentData.mk (some 1)
        [(pairKey [66, 84, 67] USD, PairData.mk 60000 []),
         (pairKey [69, 84, 72] USD, PairData.mk 3000 [])])
      (some USD) (some 2) (Or.inr ⟨2, rfl, by norm_num⟩)⟩

/-- C9: with no user logged in, each of `buy`, `sell` and
`show-portfolio` prints only the login error and returns — the
portfolio manager is not invoked (third component `false`), and the
whole CLI state (portfolios, wallets, snapshot, store) is returned
unchanged; the commands are total, so no exception is raised. -/
theorem cli_requires_login (catalog : List Str) (st : CLIState) (cur : Str)
    (amount : ℚ) (h : st.current_user = none) :
    cli_buy catalog st cur amount = (st, [Msg.errPleaseLogin], false) ∧
      cli_sell catalog st cur amount = (st, [Msg.errPleaseLogin], false) ∧
      cli_show_portfolio st = (st, [Msg.errPleaseLogin], false) := by
  refine ⟨?_, ?_, ?_⟩ <;>
    simp [cli_buy, cli_sell, cli_show_portfolio, h]

theorem cli_requires_login_witness :
    (CLIState.mk none [] emptySnapshot none).current_user = none ∧
      (cli_buy [USD] (CLIState.mk none [] emptySnapshot none) USD 1 =
          (CLIState.mk none [] emptySnapshot none, [Msg.errPleaseLogin], false) ∧
        cli_sell [USD] (CLIState.mk none [] emptySnapshot none) USD 1 =
          (CLIState.mk none [] emptySnapshot none, [Msg.errPleaseLogin], false) ∧
        cli_show_portfolio (CLIState.mk none [] emptySnapshot none) =
          (CLIState.mk none [] emptySnapshot none, [Msg.errPleaseLogin], false)) :=
  ⟨rfl, cli_requires_login [USD] (CLIState.mk none [] emptySnapshot none) USD 1 rfl⟩

end ValutaTrade
